import Mathlib

/-!
# Verification of the pdf_selector batch-processing utilities

Shallow embedding of the orchestration logic of the two command-line tools
in this repository (`pdfinsert.py` and `pdf_fill/pdf_fill.py`): page
resizing arithmetic, the page-number label layout with font shrinking, the
numeric-prefix sort key used before merging, the recursive bookmark-tree
remapper, the per-file batch orchestrator with its fallback copies, and the
temp-file cleanup paths.  Floating-point quantities of the source are
modelled over `ℚ`; the filesystem is modelled as a list of typed paths;
fallible steps are modelled with `Option` or explicit outcome types.
-/

namespace PdfSelector

/-! ## Geometry constants (from `pdf_fill/pdf_fill.py`)

`reportlab.lib.units.mm = 72 / 25.4` points, `A4 = (210*mm, 297*mm)`,
`TOP_MARGIN_RATIO = 0.10`. -/

def mm_pts : ℚ := 720 / 254

def a4_width : ℚ := 210 * mm_pts

def a4_height : ℚ := 297 * mm_pts

def top_margin_ratio : ℚ := 1 / 10

/-! ## Page transformer (`pdf_fill.py::resize_and_position_page`) -/

/-- A page's media box (width and height, in points). -/
structure PageBox where
  width : ℚ
  height : ℚ
deriving DecidableEq

/-- The affine transformation composed onto a page:
`Transformation().scale(sx, sy).translate(tx, ty)`. -/
structure Transform2 where
  scale_x : ℚ
  scale_y : ℚ
  tx : ℚ
  ty : ℚ
deriving DecidableEq

/-- Result of `resize_and_position_page`: the transformation added to the
page and the new media box. -/
structure ResizedPage where
  transform : Transform2
  mediabox : PageBox
deriving DecidableEq

/-- Embedding of `resize_and_position_page`: scale is `a4_width / original_width`
applied to both axes, vertical offset is
`a4_height - new_height - a4_height * TOP_MARGIN_RATIO`, and the media box is
set to A4. -/
def resize_and_position_page (page : PageBox) : ResizedPage :=
  let original_width := page.width
  let original_height := page.height
  let scale := a4_width / original_width
  let new_height := original_height * scale
  let top_margin := a4_height * top_margin_ratio
  let vertical_offset := a4_height - new_height - top_margin
  { transform := { scale_x := scale, scale_y := scale, tx := 0, ty := vertical_offset }
    mediabox := { width := a4_width, height := a4_height } }

/-! ## Numeric-prefix sort key (`pdfinsert.py::get_sort_key`)

`re.match(r"^\s*(\d+)", name)`: leading (ASCII) whitespace is skipped, then a
maximal run of digits is taken; a match yields the key
`(int(digits), name)`, otherwise `(float('inf'), name)`.  We model the key's
first component as `Option ℕ` with `none` playing the role of `inf`, and
Python's tuple/string `<` as explicit Boolean comparisons. -/

def py_isspace (c : Char) : Bool :=
  c == ' ' || c == '\t' || c == '\n' || c == '\r' || c == '\x0b' || c == '\x0c'

def digits_val (ds : List Char) : ℕ :=
  ds.foldl (fun acc c => acc * 10 + (c.toNat - '0'.toNat)) 0

/-- The integer prefix matched by `^\s*(\d+)`, if any. -/
def leading_number (name : String) : Option ℕ :=
  let rest := name.toList.dropWhile py_isspace
  let ds := rest.takeWhile Char.isDigit
  if ds.isEmpty then none else some (digits_val ds)

def get_sort_key (name : String) : Option ℕ × String :=
  (leading_number name, name)

/-- Python's `<` on strings: lexicographic comparison by code point, a
strict prefix comparing smaller. -/
def str_lt_chars : List Char → List Char → Bool
  | _, [] => false
  | [], _ :: _ => true
  | a :: as, b :: bs => a.toNat < b.toNat || (a == b && str_lt_chars as bs)

def py_str_lt (a b : String) : Bool :=
  str_lt_chars a.toList b.toList

/-- Python's `<` on the sort-key tuples `(int-or-inf, name)`; `none` models
`float('inf')`. -/
def key_lt : Option ℕ × String → Option ℕ × String → Bool
  | (some m, s), (some n, t) => decide (m < n) || (m == n && py_str_lt s t)
  | (some _, _), (none, _) => true
  | (none, _), (some _, _) => false
  | (none, s), (none, t) => py_str_lt s t

/-- Non-strict key comparison, as used by a stable ascending sort. -/
def key_le (a b : Option ℕ × String) : Bool :=
  !(key_lt b a)

/-- Stable insertion of `a` into a list sorted by `le` (placed before the
first element it compares `le` to, hence after earlier equal keys). -/
def ordered_insert {α : Type} (le : α → α → Bool) (a : α) : List α → List α
  | [] => [a]
  | b :: t => if le a b then a :: b :: t else b :: ordered_insert le a t

/-- Stable ascending sort (models Python's stable `list.sort(key=...)`). -/
def stable_sort {α : Type} (le : α → α → Bool) : List α → List α
  | [] => []
  | a :: t => ordered_insert le a (stable_sort le t)

/-- `processed_pdf_files.sort(key=get_sort_key)` on plain file names. -/
def sort_names (names : List String) : List String :=
  stable_sort (fun a b => key_le (get_sort_key a) (get_sort_key b)) names

/-! ## Two-segment page-number label (`pdf_fill.py::add_page_numbers`)

Constants from the source: `base_font_size = 10`, `min_font_size_part1 = 7`,
`left_margin_part1 = 10*mm`, `right_margin_part2 = 5*mm`,
`gap_between_parts = 5*mm`.  The second segment is right-anchored first at
the base size; the first segment's size is then decreased in 0.5pt steps
while its rendered width exceeds the available width and the size is above
the floor.  Font sizes are tracked in half-points (a natural number), so the
loop is structural; `reportlab`'s `stringWidth` for the first segment is
abstracted as a function `ℚ → ℚ` from font size to rendered width. -/

def base_font_size : ℚ := 10

def min_font_size_part1 : ℚ := 7

def left_margin_part1 : ℚ := 10 * mm_pts

def right_margin_part2 : ℚ := 5 * mm_pts

def gap_between_parts : ℚ := 5 * mm_pts

/-- The `while text_width_part1 > max_allowed and current > min` loop, on
font sizes counted in half-points (start `20` = 10pt, floor `14` = 7pt).
`w1` gives the first segment's rendered width at a font size in points. -/
def shrink_font_halves (w1 : ℚ → ℚ) (max_allowed : ℚ) : ℕ → ℕ
  | 0 => 0
  | n + 1 =>
    if w1 (((n + 1 : ℕ) : ℚ) / 2) > max_allowed ∧ 14 < n + 1 then
      shrink_font_halves w1 max_allowed n
    else n + 1

/-- Outcome of laying out a two-segment label on one page. -/
structure TwoPartLayout where
  x_position_part2 : ℚ
  max_allowed_width_for_part1 : ℚ
  final_size_part1 : ℚ
  warned : Bool
  drew_part1 : Bool
  drew_part2 : Bool
deriving DecidableEq

/-- Embedding of the two-segment branch of `pdf_fill.py::add_page_numbers`:
place segment 2 right-anchored at the base size, compute the width available
to segment 1, shrink segment 1's font, warn if it still overflows at the
floor, and draw both segments regardless. `width2` is segment 2's rendered
width at the base size. -/
def layout_two_part_label (w1 : ℚ → ℚ) (width2 : ℚ) : TwoPartLayout :=
  let x_position_part2 := a4_width - width2 - right_margin_part2
  let max_allowed := (x_position_part2 - gap_between_parts) - left_margin_part1
  let halves := shrink_font_halves w1 max_allowed 20
  let fs := (halves : ℚ) / 2
  { x_position_part2 := x_position_part2
    max_allowed_width_for_part1 := max_allowed
    final_size_part1 := fs
    warned := decide (w1 fs > max_allowed ∧ fs ≤ min_font_size_part1)
    drew_part1 := true
    drew_part2 := true }

/-! ## Page numbering after doubling (`pdfinsert.py::add_page_numbers`)

The input file holds each original page followed by a companion blank page,
so `original_total_pages = total_pages_in_temp_file // 2`; an odd total only
logs a warning.  Page `i` (0-based) is stamped
`f"{(i // 2) + 1} / {original_total_pages}"`. -/

/-- Result of the page-number stamping pass of `pdfinsert.py`: one label per
page of the doubled file, the odd-page warning flag, and the computed
original page count. -/
structure NumberingRun where
  labels : List String
  warned_odd : Bool
  original_total : ℕ
deriving DecidableEq

def page_number_text (i original_total : ℕ) : String :=
  toString (i / 2 + 1) ++ " / " ++ toString original_total

/-- Embedding of the label/warning computation of
`pdfinsert.py::add_page_numbers` for a doubled file of
`total_pages_in_temp_file` pages. -/
def add_page_numbers_labels (total_pages_in_temp_file : ℕ) : NumberingRun :=
  let original_total_pages := total_pages_in_temp_file / 2
  { labels :=
      (List.range total_pages_in_temp_file).map
        (fun i => page_number_text i original_total_pages)
    warned_odd := decide (total_pages_in_temp_file % 2 ≠ 0)
    original_total := original_total_pages }

/-! ## Bookmark remapper (`pdfinsert.py::add_nested_outline`)

Source outline structures as handed out by `PyPDF2` are lists whose elements
are either outline items (title, page object, optional `children`) or plain
nested lists; the walker recurses into nested lists at the same parent.
An item's page object either resolves through `reader.get_page_number` to a
0-based source index (`some p`) or fails to resolve (`none`), in which case
the item is skipped with a warning naming its title. -/

/-- An element of a source outline list: an item with title, resolvable or
unresolvable page target, and children, or a bare nested list. -/
inductive OutlineElem : Type where
  | item (title : String) (page : Option ℕ) (children : List OutlineElem)
  | sublist (elems : List OutlineElem)

/-- A bookmark created in the destination writer: title, 0-based target page
index in the destination, and nested children. -/
inductive DestItem : Type where
  | mk (title : String) (page : ℕ) (children : List DestItem)

def DestItem.title : DestItem → String
  | .mk t _ _ => t

def DestItem.page : DestItem → ℕ
  | .mk _ p _ => p

def DestItem.children : DestItem → List DestItem
  | .mk _ _ c => c

/-- The warning printed when an item's page object cannot be resolved. -/
def skip_warn (title : String) : String :=
  "warning: cannot resolve the page object of bookmark " ++ title ++ ", skipping it"

mutual

/-- Embedding of `add_nested_outline` on one source element: a nested list
is walked at the same parent; an unresolvable item is skipped, logging a
warning that names it; a resolvable item becomes a destination item at
`page_idx_transform_func` of its source index, with its children walked
beneath it.  Returns the items created under the current parent and the
warnings logged, in source order. -/
def add_nested_elem (f : ℕ → ℕ) : OutlineElem → List DestItem × List String
  | .sublist elems => add_nested_outline f elems
  | .item title none _children => ([], [skip_warn title])
  | .item title (some p) children =>
    let sub := add_nested_outline f children
    ([.mk title (f p) sub.1], sub.2)

/-- Embedding of the `for item in source_items` loop of
`add_nested_outline`. -/
def add_nested_outline (f : ℕ → ℕ) : List OutlineElem → List DestItem × List String
  | [] => ([], [])
  | e :: rest =>
    let first := add_nested_elem f e
    let more := add_nested_outline f rest
    (first.1 ++ more.1, first.2 ++ more.2)

end

mutual

/-- Spec-side description (§4.3 of the spec) of the destination entries: for
each entry that resolves, create it under the current parent at the mapped
index and recurse into its children; entries that fail to resolve contribute
nothing; entries are kept in source order. -/
def spec_resolved_elem (f : ℕ → ℕ) : OutlineElem → List DestItem
  | .sublist elems => spec_resolved_list f elems
  | .item _ none _ => []
  | .item title (some p) children =>
    [.mk title (f p) (spec_resolved_list f children)]

def spec_resolved_list (f : ℕ → ℕ) : List OutlineElem → List DestItem
  | [] => []
  | e :: rest => spec_resolved_elem f e ++ spec_resolved_list f rest

end

mutual

/-- Spec-side description of the skipped entries: the titles of exactly the
entries whose page fails to resolve, in source order; the subtree below a
skipped entry is dropped, while a resolved entry only contributes skips from
its children. -/
def spec_skipped_elem : OutlineElem → List String
  | .sublist elems => spec_skipped_list elems
  | .item title none _ => [title]
  | .item _ (some _) children => spec_skipped_list children

def spec_skipped_list : List OutlineElem → List String
  | [] => []
  | e :: rest => spec_skipped_elem e ++ spec_skipped_list rest

end

/-! ## Merging with hierarchical bookmarks
(`pdfinsert.py::merge_pdfs_with_bookmarks`, `pdf_fill.py::merge_pdfs`) -/

/-- `pathlib.Path.stem` / `os.path.splitext(...)[0]`: the file name without
its final extension (a lone leading dot is not an extension). -/
def stem (name : String) : String :=
  let cs := name.toList
  let ext_len := (cs.reverse.takeWhile (fun c => c != '.')).length
  let dot_pos := cs.length - ext_len - 1
  if ext_len = cs.length ∨ dot_pos = 0 then name
  else String.mk (cs.take dot_pos)

/-- One file presented to the merge step: its file name, its page count, and
its own outline tree (as read back from the processed file). -/
structure MergeInput : Type where
  name : String
  pages : ℕ
  outline : List OutlineElem

/-- The order `processed_pdf_files.sort(key=get_sort_key)` establishes,
applied to the files found in the output directory. -/
def merge_le (a b : MergeInput) : Bool :=
  key_le (get_sort_key a.name) (get_sort_key b.name)

/-- The merged document's outline and page bookkeeping: top-level items (one
per merged file), total pages written, and how many files were merged. -/
structure MergeResult : Type where
  top_items : List DestItem
  total_pages : ℕ
  files_merged : ℕ

/-- Events printed by the orchestrator and merge step that the claims talk
about. -/
inductive BatchLog : Type where
  | proc_error (filename : String)
  | fallback_copied (filename : String)
  | numbering_error (filename : String)
  | intermediate_copied (filename : String)
  | empty_skipped (filename : String)
  | file_done (filename : String)
  | summary (succeeded : ℕ) (failed : List String)
  | no_input_files
  | no_mergeable_files
  | no_pages_merged
deriving DecidableEq

/-- The `for idx, processed_pdf_path in enumerate(...)` loop of
`merge_pdfs_with_bookmarks`: an empty file is skipped; otherwise a top-level
bookmark titled with the file's stem is created at the current merged page
index, the file's own outline is transplanted beneath it with the additive
offset map, its pages are appended, and the offset advances by its page
count.  Returns (top-level items, final page offset, files merged). -/
def merge_loop (acc files_merged : ℕ) :
    List MergeInput → List DestItem × ℕ × ℕ
  | [] => ([], acc, files_merged)
  | f :: rest =>
    if f.pages = 0 then merge_loop acc files_merged rest
    else
      let nested := (add_nested_outline (fun i => i + acc) f.outline).1
      let more := merge_loop (acc + f.pages) (files_merged + 1) rest
      (.mk (stem f.name) acc nested :: more.1, more.2)

/-- Embedding of `pdfinsert.py::merge_pdfs_with_bookmarks` on the list of
PDF files found in the output directory: sort by `get_sort_key`, abort when
there is nothing to merge or when no page was merged (writing no output),
otherwise write the merged file. -/
def merge_pdfs_with_bookmarks (found : List MergeInput) :
    Option MergeResult × List BatchLog :=
  let processed_pdf_files := stable_sort merge_le found
  if processed_pdf_files.isEmpty then (none, [.no_mergeable_files])
  else
    let r := merge_loop 0 0 processed_pdf_files
    if r.2.1 = 0 then (none, [.no_pages_merged])
    else (some { top_items := r.1, total_pages := r.2.1, files_merged := r.2.2 }, [])

/-- The top-level `(title, page)` pairs of the merged outline. -/
def merged_top_entries (found : List MergeInput) : Option (List (String × ℕ)) :=
  ((merge_pdfs_with_bookmarks found).1).map
    (fun r => r.top_items.map (fun d => (d.title, d.page)))

/-- The bookmark loop of `pdf_fill.py::merge_pdfs`: one top-level bookmark
per input file (no skipping), titled with the file's base name, at the
running page offset. -/
def pdf_fill_merge_entries_from (current_page : ℕ) :
    List (String × ℕ) → List (String × ℕ)
  | [] => []
  | (name, count) :: rest =>
    (stem name, current_page) :: pdf_fill_merge_entries_from (current_page + count) rest

def pdf_fill_merge_entries (files : List (String × ℕ)) : List (String × ℕ) :=
  pdf_fill_merge_entries_from 0 files

/-- Spec-side ("§4.4 / §8") exclusive prefix sums: entry `i` of
`page_offsets counts` is the sum of the page counts of all files preceding
file `i`. -/
def page_offsets : List ℕ → List ℕ
  | [] => []
  | c :: rest => 0 :: (page_offsets rest).map (fun x => x + c)

/-- Spec-side top-level outline of a merge: one entry per source file in
order, titled with the file's base name, targeting the sum of the preceding
files' page counts. -/
def spec_top_level (files : List MergeInput) : List (String × ℕ) :=
  List.zip (files.map (fun f => stem f.name)) (page_offsets (files.map (fun f => f.pages)))

/-! ## Batch orchestrator (`pdfinsert.py::process_pdf`, `process_all_pdfs`)

`process_pdf` backs the file up, adds margins, adds blank companion pages,
then numbers pages and transplants bookmarks.  An exception anywhere in the
`try` body is logged and answered by copying the original file to the
expected output path (best effort); a failure inside `add_page_numbers` is
answered inside that function by copying the doubled intermediate to the
output path.  Either way `process_pdf` returns `None` and the batch loop
records the file as failed and moves on.  `process_all_pdfs` then merges
whatever `*.pdf` files (not starting with `temp_`) sit in the output
directory. -/

/-- What happens to one input file when `process_pdf` runs on it, carrying
the original page count where an output file results. -/
inductive FileOutcome : Type where
  | success (pages : ℕ) (outline : List OutlineElem)
  | empty_file
  | fail_early (pages : ℕ)
  | fail_numbering (pages : ℕ)

mutual

/-- A bookmark written to a processed output file, as it reads back when the
merge step re-opens that file: every written item resolves to its written
page index. -/
def outline_of_dest : DestItem → OutlineElem
  | .mk title page children => .item title (some page) (outline_of_dest_list children)

def outline_of_dest_list : List DestItem → List OutlineElem
  | [] => []
  | d :: rest => outline_of_dest d :: outline_of_dest_list rest

end

/-- The file(s) `process_pdf` leaves in the output directory for one input:
a fully processed file (doubled pages, remapped outline) on success, a copy
of the original on an exception, a copy of the doubled intermediate (which
carries no outline) when numbering fails, and nothing for an empty input. -/
def file_outputs (filename : String) : FileOutcome → List MergeInput
  | .success pages outline =>
    [{ name := filename, pages := 2 * pages,
       outline := outline_of_dest_list (add_nested_outline (fun i => i * 2) outline).1 }]
  | .empty_file => []
  | .fail_early pages => [{ name := filename, pages := pages, outline := [] }]
  | .fail_numbering pages => [{ name := filename, pages := 2 * pages, outline := [] }]

/-- Whether `process_pdf` returned a path (counted as a success by the batch
loop). -/
def outcome_succeeded : FileOutcome → Bool
  | .success _ _ => true
  | _ => false

/-- What `process_pdf` prints for one file, per outcome. -/
def file_logs (filename : String) : FileOutcome → List BatchLog
  | .success _ _ => [.file_done filename]
  | .empty_file => [.empty_skipped filename]
  | .fail_early _ => [.proc_error filename, .fallback_copied filename]
  | .fail_numbering _ => [.numbering_error filename, .intermediate_copied filename]

/-- Output-directory contents accumulated by the batch loop. -/
def batch_outputs : List (String × FileOutcome) → List MergeInput
  | [] => []
  | (fn, oc) :: rest => file_outputs fn oc ++ batch_outputs rest

/-- `processed_files_count` accumulated by the batch loop. -/
def batch_success_count : List (String × FileOutcome) → ℕ
  | [] => 0
  | (_, oc) :: rest =>
    (if outcome_succeeded oc then 1 else 0) + batch_success_count rest

/-- `failed_files` accumulated by the batch loop, in order. -/
def batch_failed : List (String × FileOutcome) → List String
  | [] => []
  | (fn, oc) :: rest =>
    (if outcome_succeeded oc then [] else [fn]) ++ batch_failed rest

/-- Log lines emitted while the batch loop runs. -/
def batch_logs : List (String × FileOutcome) → List BatchLog
  | [] => []
  | (fn, oc) :: rest => file_logs fn oc ++ batch_logs rest

/-- Result of a full `process_all_pdfs` run. -/
structure BatchRun : Type where
  success_count : ℕ
  failed : List String
  logs : List BatchLog
  merge_inputs : Option (List MergeInput)
  merged : Option MergeResult

/-- Embedding of `process_all_pdfs`: abort (with a message and no merge)
when no input PDF was found; otherwise process every file in order, print
the summary, and run the merge on everything now sitting in the output
directory — but only when at least one file was fully processed. -/
def process_all_pdfs (files : List (String × FileOutcome)) : BatchRun :=
  if files.isEmpty then
    { success_count := 0, failed := [], logs := [.no_input_files],
      merge_inputs := none, merged := none }
  else
    let cnt := batch_success_count files
    let fl := batch_failed files
    let outs := batch_outputs files
    let lg := batch_logs files ++ [.summary cnt fl]
    if 0 < cnt then
      { success_count := cnt, failed := fl, logs := lg,
        merge_inputs := some (stable_sort merge_le outs),
        merged := (merge_pdfs_with_bookmarks outs).1 }
    else
      { success_count := cnt, failed := fl, logs := lg,
        merge_inputs := none, merged := none }

/-! ## Temporary-file cleanup
(`pdfinsert.py::process_pdf` `finally` block, `pdf_fill.py::merge_pdfs`
`finally` block)

The filesystem is modelled as the set (a list) of paths that exist; paths
are typed so distinct kinds of files cannot collide.  `unlink` removes a
path. -/

/-- Files the two tools create, by role. -/
inductive FsPath : Type where
  | backup_of (filename : String)
  | output_of (filename : String)
  | temp_margin (filename : String)
  | temp_blank (filename : String)
  | tmp_of (filename : String)
  | merged_output
deriving DecidableEq

/-- `Path.unlink` (and the `if temp_file.exists()` guard before it): the
path no longer exists afterwards. -/
def unlink (p : FsPath) (fs : List FsPath) : List FsPath :=
  fs.filter (fun q => q ≠ p)

/-- Where `process_pdf` can stop for one input file. -/
inductive ProcStage : Type where
  | backup_failed
  | early_exception
  | empty_input
  | exception_after_margin_file
  | exception_after_blank_file
  | numbering_failed
  | completed
deriving DecidableEq

/-- The files `process_pdf`'s `try` body (plus its `except` fallback copy)
has created when it reaches the `finally` block, per stage reached. -/
def process_pdf_files_created (fn : String) : ProcStage → List FsPath
  | .backup_failed => [.output_of fn]
  | .early_exception => [.backup_of fn, .output_of fn]
  | .empty_input => [.backup_of fn]
  | .exception_after_margin_file => [.backup_of fn, .temp_margin fn, .output_of fn]
  | .exception_after_blank_file =>
    [.backup_of fn, .temp_margin fn, .temp_blank fn, .output_of fn]
  | .numbering_failed =>
    [.backup_of fn, .temp_margin fn, .temp_blank fn, .output_of fn]
  | .completed => [.backup_of fn, .temp_margin fn, .temp_blank fn, .output_of fn]

/-- Embedding of one `process_pdf` run over the filesystem: the body writes
its files, then the `finally` block unlinks `temp_margin_...` and
`temp_blank_...` whatever happened. -/
def run_process_pdf_fs (fn : String) (stage : ProcStage) (fs : List FsPath) :
    List FsPath :=
  let after_body := fs ++ process_pdf_files_created fn stage
  unlink (.temp_blank fn) (unlink (.temp_margin fn) after_body)

/-- The `tmp_<basename>` files `pdf_fill.py::merge_pdfs` has appended to
`processed_files` by the time its `finally` block runs: one per input file
already preprocessed, stopping at the file whose preprocessing raised. -/
def merge_tmp_created (input_files : List String) (fail_at : Option ℕ) :
    List FsPath :=
  (input_files.take (match fail_at with | none => input_files.length | some j => j)).map
    (fun n => FsPath.tmp_of n)

/-- Embedding of one `pdf_fill.py::merge_pdfs` run over the filesystem: the
tmp files are written, the merged output is written only when nothing
raised, and the `finally` block unlinks every path in `processed_files`. -/
def run_merge_pdfs_fs (input_files : List String) (fail_at : Option ℕ)
    (fs : List FsPath) : List FsPath :=
  let created := merge_tmp_created input_files fail_at
  let after_body :=
    (fs ++ created) ++ (match fail_at with | none => [FsPath.merged_output] | some _ => [])
  created.foldl (fun s p => unlink p s) after_body

/-! ## `pdf_fill.py::main` on a directory input -/

/-- Embedding of the directory branch of `pdf_fill.py::main`: glob the
directory, abort (producing nothing) when it holds no PDF files, otherwise
hand the lexically sorted list on for processing/merging. -/
def pdf_fill_main_dir (pdfs_in_dir : List String) : Option (List String) :=
  if pdfs_in_dir.isEmpty then none
  else some (stable_sort (fun a b => !(py_str_lt b a)) pdfs_in_dir)

/-! ## Helper lemmas -/

theorem perm_ordered_insert {α : Type} (le : α → α → Bool) (a : α) :
    ∀ l : List α, List.Perm (ordered_insert le a l) (a :: l)
  | [] => List.Perm.refl _
  | b :: t => by
    rw [ordered_insert]
    by_cases h : le a b = true
    · rw [if_pos h]
    · rw [if_neg h]
      exact ((perm_ordered_insert le a t).cons b).trans (List.Perm.swap a b t)

theorem perm_stable_sort {α : Type} (le : α → α → Bool) :
    ∀ l : List α, List.Perm (stable_sort le l) l
  | [] => List.Perm.refl _
  | a :: t =>
    (perm_ordered_insert le a (stable_sort le t)).trans
      ((perm_stable_sort le t).cons a)

theorem mem_stable_sort {α : Type} (le : α → α → Bool) (l : List α) (x : α) :
    x ∈ stable_sort le l ↔ x ∈ l :=
  (perm_stable_sort le l).mem_iff

theorem length_stable_sort {α : Type} (le : α → α → Bool) (l : List α) :
    (stable_sort le l).length = l.length :=
  (perm_stable_sort le l).length_eq

theorem a4_width_ne_zero : a4_width ≠ 0 := by
  norm_num [a4_width, mm_pts]

/-- C4: for every source page with nonzero width,
`resize_and_position_page` computes a uniform scale `a4_width / width` on
both axes — so the scaled content keeps the source's height/width ratio —
and a vertical offset `a4_height - scaled_height - a4_height * margin_ratio`,
which is negative (and not corrected) whenever the scaled content is taller
than the space available below the top margin. -/
theorem claim_C4 (page : PageBox) (hw : page.width ≠ 0) :
    (resize_and_position_page page).transform.scale_x = a4_width / page.width ∧
    (resize_and_position_page page).transform.scale_y
      = (resize_and_position_page page).transform.scale_x ∧
    (page.height * (resize_and_position_page page).transform.scale_y)
        / (page.width * (resize_and_position_page page).transform.scale_x)
      = page.height / page.width ∧
    (resize_and_position_page page).transform.ty
      = a4_height - page.height * (a4_width / page.width)
          - a4_height * top_margin_ratio ∧
    (a4_height - a4_height * top_margin_ratio
        < page.height * (resize_and_position_page page).transform.scale_y →
      (resize_and_position_page page).transform.ty < 0) := by
  have hscale : a4_width / page.width ≠ 0 := div_ne_zero a4_width_ne_zero hw
  refine ⟨rfl, rfl, ?_, rfl, ?_⟩
  · simp only [resize_and_position_page]
    rw [mul_comm page.height _, mul_comm page.width _, mul_div_mul_left _ _ hscale]
  · simp only [resize_and_position_page]
    intro h
    linarith

/-- Witness for C4 at a concrete 100×50pt page. -/
theorem claim_C4_witness :
    (resize_and_position_page ⟨100, 50⟩).transform.scale_x = a4_width / 100 ∧
    (resize_and_position_page ⟨100, 50⟩).transform.scale_y
      = (resize_and_position_page ⟨100, 50⟩).transform.scale_x ∧
    (50 * (resize_and_position_page ⟨100, 50⟩).transform.scale_y)
        / (100 * (resize_and_position_page ⟨100, 50⟩).transform.scale_x)
      = 50 / 100 ∧
    (resize_and_position_page ⟨100, 50⟩).transform.ty
      = a4_height - 50 * (a4_width / 100) - a4_height * top_margin_ratio ∧
    (a4_height - a4_height * top_margin_ratio
        < 50 * (resize_and_position_page ⟨100, 50⟩).transform.scale_y →
      (resize_and_position_page ⟨100, 50⟩).transform.ty < 0) :=
  claim_C4 ⟨100, 50⟩ (by norm_num)

/-- C7: on an intermediate file with an odd page count, the page-number
stage warns rather than raising, computes `original page count`
`= floor(total/2)`, still produces one label per page, and labels page `i`
with original page number `floor(i/2) + 1` over that total. -/
theorem claim_C7 (n : ℕ) (hodd : n % 2 = 1) :
    (add_page_numbers_labels n).warned_odd = true ∧
    (add_page_numbers_labels n).original_total = n / 2 ∧
    2 * (add_page_numbers_labels n).original_total + 1 = n ∧
    (add_page_numbers_labels n).labels.length = n ∧
    ∀ i, i < n →
      (add_page_numbers_labels n).labels[i]?
        = some (toString (i / 2 + 1) ++ " / " ++ toString (n / 2)) := by
  have horig : (add_page_numbers_labels n).original_total = n / 2 := rfl
  have hw : (add_page_numbers_labels n).warned_odd = decide (n % 2 ≠ 0) := rfl
  refine ⟨?_, horig, by omega, by simp [add_page_numbers_labels], ?_⟩
  · rw [hw, decide_eq_true_eq]
    omega
  · intro i hi
    simp [add_page_numbers_labels, page_number_text, hi]

/-- Witness for C7 on a 5-page intermediate file. -/
theorem claim_C7_witness :
    (add_page_numbers_labels 5).warned_odd = true ∧
    (add_page_numbers_labels 5).original_total = 5 / 2 ∧
    2 * (add_page_numbers_labels 5).original_total + 1 = 5 ∧
    (add_page_numbers_labels 5).labels.length = 5 ∧
    ∀ i, i < 5 →
      (add_page_numbers_labels 5).labels[i]?
        = some (toString (i / 2 + 1) ++ " / " ++ toString (5 / 2)) :=
  claim_C7 5 (by norm_num)

/-- C3: the merge step's sort key orders names with numeric prefixes by the
integer value of the prefix, breaks equal numeric prefixes lexically by the
full name, puts names without a numeric prefix after every numerically
prefixed name (and orders those lexically among themselves), and in
particular sorts "2-report.pdf", "10-report.pdf", "1-report.pdf" as
1, 2, 10. -/
theorem claim_C3 :
    (∀ a b na nb, leading_number a = some na → leading_number b = some nb →
      na < nb → key_lt (get_sort_key a) (get_sort_key b) = true) ∧
    (∀ a b n, leading_number a = some n → leading_number b = some n →
      key_lt (get_sort_key a) (get_sort_key b) = py_str_lt a b) ∧
    (∀ a b n, leading_number a = some n → leading_number b = none →
      key_lt (get_sort_key a) (get_sort_key b) = true ∧
      key_lt (get_sort_key b) (get_sort_key a) = false) ∧
    (∀ a b, leading_number a = none → leading_number b = none →
      key_lt (get_sort_key a) (get_sort_key b) = py_str_lt a b) ∧
    sort_names ["2-report.pdf", "10-report.pdf", "1-report.pdf"]
      = ["1-report.pdf", "2-report.pdf", "10-report.pdf"] := by
  refine ⟨?_, ?_, ?_, ?_, by decide⟩
  · intro a b na nb ha hb hlt
    simp [get_sort_key, ha, hb, key_lt, hlt]
  · intro a b n ha hb
    simp [get_sort_key, ha, hb, key_lt]
  · intro a b n ha hb
    simp [get_sort_key, ha, hb, key_lt]
  · intro a b ha hb
    simp [get_sort_key, ha, hb, key_lt]

/-- Witness for C3: concrete instances of each quantified conjunct. -/
theorem claim_C3_witness :
    key_lt (get_sort_key "1-a.pdf") (get_sort_key "2-a.pdf") = true ∧
    key_lt (get_sort_key "01-b.pdf") (get_sort_key "1-a.pdf")
      = py_str_lt "01-b.pdf" "1-a.pdf" ∧
    key_lt (get_sort_key "7.pdf") (get_sort_key "report.pdf") = true ∧
    key_lt (get_sort_key "alpha.pdf") (get_sort_key "beta.pdf")
      = py_str_lt "alpha.pdf" "beta.pdf" :=
  ⟨claim_C3.1 "1-a.pdf" "2-a.pdf" 1 2 (by decide) (by decide) (by decide),
   claim_C3.2.1 "01-b.pdf" "1-a.pdf" 1 (by decide) (by decide),
   (claim_C3.2.2.1 "7.pdf" "report.pdf" 7 (by decide) (by decide)).1,
   claim_C3.2.2.2.1 "alpha.pdf" "beta.pdf" (by decide) (by decide)⟩

theorem shrink_font_halves_spec (w1 : ℚ → ℚ) (maxA : ℚ) :
    ∀ n : ℕ, 14 ≤ n →
      14 ≤ shrink_font_halves w1 maxA n ∧
      shrink_font_halves w1 maxA n ≤ n ∧
      (w1 ((shrink_font_halves w1 maxA n : ℚ) / 2) ≤ maxA ∨
        shrink_font_halves w1 maxA n = 14) ∧
      (∀ k : ℕ, shrink_font_halves w1 maxA n < k → k ≤ n →
        maxA < w1 ((k : ℚ) / 2)) := by
  intro n
  induction n with
  | zero => omega
  | succ m ih =>
    intro hm
    rw [shrink_font_halves]
    by_cases hc : w1 (((m + 1 : ℕ) : ℚ) / 2) > maxA ∧ 14 < m + 1
    · rw [if_pos hc]
      have hm' : 14 ≤ m := by omega
      obtain ⟨h1, h2, h3, h4⟩ := ih hm'
      refine ⟨h1, by omega, h3, ?_⟩
      intro k hk1 hk2
      rcases Nat.lt_or_ge k (m + 1) with hk | hk
      · exact h4 k hk1 (by omega)
      · have : k = m + 1 := by omega
        rw [this]
        exact hc.1
    · rw [if_neg hc]
      rcases Nat.lt_or_ge 14 (m + 1) with h14 | h14
      · have hw : ¬ w1 (((m + 1 : ℕ) : ℚ) / 2) > maxA := fun hw => hc ⟨hw, h14⟩
        exact ⟨by omega, le_refl _, Or.inl (le_of_not_lt hw), fun k hk1 hk2 => by omega⟩
      · have : m + 1 = 14 := by omega
        exact ⟨by omega, le_refl _, Or.inr this, fun k hk1 hk2 => by omega⟩

/-- C5: for a two-segment page-number label, the second segment is placed
right-anchored at its fixed base size first; the available width for the
first segment is the second segment's start position minus the fixed gap and
the left margin; the first segment's size starts at the 10pt base and moves
only through 0.5pt steps, never below the 7pt floor, every size above the
final one having overflowed; when the loop stops either the first segment
fits, or the size sits at the floor and the overflow warning is logged; and
both segments are drawn regardless. -/
theorem claim_C5 (w1 : ℚ → ℚ) (width2 : ℚ) :
    (layout_two_part_label w1 width2).x_position_part2
      = a4_width - width2 - right_margin_part2 ∧
    (layout_two_part_label w1 width2).max_allowed_width_for_part1
      = ((layout_two_part_label w1 width2).x_position_part2 - gap_between_parts)
          - left_margin_part1 ∧
    min_font_size_part1 ≤ (layout_two_part_label w1 width2).final_size_part1 ∧
    (layout_two_part_label w1 width2).final_size_part1 ≤ base_font_size ∧
    (∃ h : ℕ, (layout_two_part_label w1 width2).final_size_part1 = (h : ℚ) / 2) ∧
    (w1 (layout_two_part_label w1 width2).final_size_part1
        ≤ (layout_two_part_label w1 width2).max_allowed_width_for_part1 ∨
      ((layout_two_part_label w1 width2).final_size_part1 = min_font_size_part1 ∧
        (layout_two_part_label w1 width2).warned = true)) ∧
    (∀ k : ℕ,
      (layout_two_part_label w1 width2).final_size_part1 < (k : ℚ) / 2 →
      (k : ℚ) / 2 ≤ base_font_size →
      (layout_two_part_label w1 width2).max_allowed_width_for_part1
        < w1 ((k : ℚ) / 2)) ∧
    (layout_two_part_label w1 width2).drew_part1 = true ∧
    (layout_two_part_label w1 width2).drew_part2 = true := by
  set maxA := (a4_width - width2 - right_margin_part2 - gap_between_parts)
      - left_margin_part1 with hmaxA
  have hL : layout_two_part_label w1 width2 =
      { x_position_part2 := a4_width - width2 - right_margin_part2
        max_allowed_width_for_part1 := maxA
        final_size_part1 := ((shrink_font_halves w1 maxA 20 : ℕ) : ℚ) / 2
        warned := decide (w1 (((shrink_font_halves w1 maxA 20 : ℕ) : ℚ) / 2) > maxA ∧
          ((shrink_font_halves w1 maxA 20 : ℕ) : ℚ) / 2 ≤ min_font_size_part1)
        drew_part1 := true
        drew_part2 := true } := rfl
  obtain ⟨h14, h20, hfit, hsteps⟩ := shrink_font_halves_spec w1 maxA 20 (by norm_num)
  set r := shrink_font_halves w1 maxA 20 with hr
  have hcast14 : (14 : ℚ) ≤ (r : ℚ) := by exact_mod_cast h14
  have hcast20 : (r : ℚ) ≤ 20 := by exact_mod_cast h20
  rw [hL]
  refine ⟨rfl, rfl, ?_, ?_, ⟨r, rfl⟩, ?_, ?_, rfl, rfl⟩
  · simp only [min_font_size_part1]
    linarith
  · simp only [base_font_size]
    linarith
  · rcases hfit with hle | hfloor
    · exact Or.inl hle
    · by_cases hle : w1 ((r : ℚ) / 2) ≤ maxA
      · exact Or.inl hle
      · refine Or.inr ⟨by rw [hfloor]; norm_num [min_font_size_part1], ?_⟩
        rw [decide_eq_true_eq]
        exact ⟨lt_of_not_ge hle, by rw [hfloor]; norm_num [min_font_size_part1]⟩
  · intro k hk1 hk2
    have hrk : r < k := by
      have : (r : ℚ) < (k : ℚ) := by linarith
      exact_mod_cast this
    have hk20 : k ≤ 20 := by
      have : (k : ℚ) ≤ 20 := by
        simp only [base_font_size] at hk2
        linarith
      exact_mod_cast this
    exact hsteps k hrk hk20

/-- Witness for C5 at a concrete width function and second-segment width. -/
theorem claim_C5_witness :
    (layout_two_part_label (fun s => s * 10) 30).drew_part1 = true ∧
    (layout_two_part_label (fun s => s * 10) 30).drew_part2 = true :=
  (claim_C5 (fun s => s * 10) 30).2.2.2.2.2.2.2

mutual

theorem add_nested_elem_eq (f : ℕ → ℕ) :
    ∀ e : OutlineElem,
      add_nested_elem f e = (spec_resolved_elem f e, (spec_skipped_elem e).map skip_warn)
  | .sublist elems => by
    rw [add_nested_elem, spec_resolved_elem, spec_skipped_elem,
      add_nested_outline_eq f elems]
  | .item t none kids => by
    rw [add_nested_elem, spec_resolved_elem, spec_skipped_elem]
    rfl
  | .item t (some p) kids => by
    rw [add_nested_elem, spec_resolved_elem, spec_skipped_elem,
      add_nested_outline_eq f kids]

theorem add_nested_outline_eq (f : ℕ → ℕ) :
    ∀ l : List OutlineElem,
      add_nested_outline f l
        = (spec_resolved_list f l, (spec_skipped_list l).map skip_warn)
  | [] => by
    rw [add_nested_outline, spec_resolved_list, spec_skipped_list]
    rfl
  | e :: rest => by
    rw [add_nested_outline, spec_resolved_list, spec_skipped_list,
      add_nested_elem_eq f e, add_nested_outline_eq f rest]
    simp

end

/-- C6: the bookmark walk produces exactly the entries described by the
spec — every entry whose page resolves is created, in source order, at the
index given by the caller's page map with its children recursed beneath it,
while every entry whose page fails to resolve is skipped, contributing only
a diagnostic naming its title, and the walk continues with the remaining
entries instead of aborting. -/
theorem claim_C6 (f : ℕ → ℕ) (items : List OutlineElem) :
    add_nested_outline f items
      = (spec_resolved_list f items, (spec_skipped_list items).map skip_warn) :=
  add_nested_outline_eq f items

/-- C10: when an entry's page fails to resolve, the whole subtree below it
is dropped with it — the walk's result does not depend on the failing
entry's children, the destination gains no item for the subtree, and the
only log line added for it is the one skip warning. -/
theorem claim_C10 (f : ℕ → ℕ) (t : String)
    (kids kids' rest : List OutlineElem) :
    add_nested_outline f (.item t none kids :: rest)
      = add_nested_outline f (.item t none kids' :: rest) ∧
    (add_nested_outline f (.item t none kids :: rest)).1
      = (add_nested_outline f rest).1 ∧
    (add_nested_outline f (.item t none kids :: rest)).2
      = skip_warn t :: (add_nested_outline f rest).2 := by
  refine ⟨?_, ?_, ?_⟩ <;>
    simp [add_nested_outline, add_nested_elem]

theorem page_offsets_length : ∀ l : List ℕ, (page_offsets l).length = l.length
  | [] => rfl
  | c :: rest => by simp [page_offsets, page_offsets_length rest]

theorem page_offsets_replicate_one :
    ∀ n : ℕ, page_offsets (List.replicate n 1) = List.range n
  | 0 => rfl
  | n + 1 => by
    rw [List.replicate_succ, page_offsets, page_offsets_replicate_one n,
      List.range_succ_eq_map]

theorem merge_loop_total :
    ∀ (files : List MergeInput) (acc fm : ℕ),
      (merge_loop acc fm files).2.1 = acc + (files.map (fun f => f.pages)).sum
  | [], acc, fm => by simp [merge_loop]
  | f :: rest, acc, fm => by
    rw [merge_loop]
    by_cases h : f.pages = 0
    · rw [if_pos h, merge_loop_total rest acc fm]
      simp [h]
    · rw [if_neg h]
      show (merge_loop (acc + f.pages) (fm + 1) rest).2.1 = _
      rw [merge_loop_total rest (acc + f.pages) (fm + 1)]
      simp
      omega

theorem merge_loop_entries :
    ∀ (files : List MergeInput), (∀ f ∈ files, 0 < f.pages) → ∀ acc fm : ℕ,
      (merge_loop acc fm files).1.map (fun d => (d.title, d.page))
        = List.zip (files.map fun f => stem f.name)
            ((page_offsets (files.map fun f => f.pages)).map (fun x => x + acc))
  | [], _, acc, fm => by simp [merge_loop, page_offsets]
  | f :: rest, h, acc, fm => by
    have hf : f.pages ≠ 0 :=
      Nat.pos_iff_ne_zero.mp (h f (List.mem_cons_self f rest))
    have hrest : ∀ g ∈ rest, 0 < g.pages := fun g hg => h g (List.mem_cons_of_mem f hg)
    rw [merge_loop, if_neg hf]
    show ((DestItem.mk (stem f.name) acc _) :: (merge_loop (acc + f.pages) (fm + 1) rest).1).map _ = _
    rw [List.map_cons, merge_loop_entries rest hrest (acc + f.pages) (fm + 1)]
    simp only [List.map_cons, page_offsets, List.zip_cons_cons, DestItem.title,
      DestItem.page, List.map_map]
    have harith : (fun x => x + (acc + f.pages)) = ((fun x => x + acc) ∘ (fun x => x + f.pages)) := by
      funext x
      simp [Function.comp]
      omega
    rw [harith]
    simp

theorem pdf_fill_merge_entries_from_eq :
    ∀ (files : List (String × ℕ)) (cur : ℕ),
      pdf_fill_merge_entries_from cur files
        = List.zip (files.map fun g => stem g.1)
            ((page_offsets (files.map fun g => g.2)).map (fun x => x + cur))
  | [], cur => by simp [pdf_fill_merge_entries_from, page_offsets]
  | (name, count) :: rest, cur => by
    rw [pdf_fill_merge_entries_from,
      pdf_fill_merge_entries_from_eq rest (cur + count)]
    simp only [List.map_cons, page_offsets, List.zip_cons_cons, List.map_map]
    have harith : (fun x => x + (cur + count)) = ((fun x => x + cur) ∘ (fun x => x + count)) := by
      funext x
      simp [Function.comp]
      omega
    rw [harith]
    simp

/-- C2: merging N files that all have at least one page produces exactly N
top-level outline entries, one per file in merge order, each titled with the
file's base name and each targeting the sum of the page counts of the files
merged before it; when all N files have a single page, entry `i` targets
page `i`.  The same prefix-sum/base-name shape holds for the bookmark loop
of `pdf_fill.py::merge_pdfs`. -/
theorem claim_C2 (found : List MergeInput)
    (hpos : ∀ f ∈ found, 0 < f.pages) (hne : found ≠ []) :
    merged_top_entries found = some (spec_top_level (stable_sort merge_le found)) ∧
    (spec_top_level (stable_sort merge_le found)).length = found.length ∧
    ((∀ f ∈ found, f.pages = 1) →
      (spec_top_level (stable_sort merge_le found)).map (fun e => e.2)
        = List.range found.length) ∧
    (∀ gfiles : List (String × ℕ),
      pdf_fill_merge_entries gfiles
        = List.zip (gfiles.map fun g => stem g.1)
            (page_offsets (gfiles.map fun g => g.2))) := by
  have hadd0 : ∀ l : List ℕ, l.map (fun x => x + 0) = l := by
    intro l
    simp
  have hspos : ∀ f ∈ stable_sort merge_le found, 0 < f.pages := fun f hf =>
    hpos f ((mem_stable_sort merge_le found f).mp hf)
  have hslen : (stable_sort merge_le found).length = found.length :=
    length_stable_sort merge_le found
  have hsne : (stable_sort merge_le found) ≠ [] := by
    intro hnil
    apply hne
    rw [← List.length_eq_zero, ← hslen, hnil]
    rfl
  have hlen2 : (spec_top_level (stable_sort merge_le found)).length
      = found.length := by
    rw [spec_top_level, List.length_zip, page_offsets_length]
    simp [hslen]
  refine ⟨?_, hlen2, ?_, ?_⟩
  · have hempty : (stable_sort merge_le found).isEmpty = false := by
      cases hsort : stable_sort merge_le found with
      | nil => exact absurd hsort hsne
      | cons a t => rfl
    have htot : (merge_loop 0 0 (stable_sort merge_le found)).2.1
        = ((stable_sort merge_le found).map (fun f => f.pages)).sum := by
      rw [merge_loop_total]
      simp
    have hpossum : 0 < ((stable_sort merge_le found).map (fun f => f.pages)).sum := by
      cases hsort : stable_sort merge_le found with
      | nil => exact absurd hsort hsne
      | cons a t =>
        have ha : 0 < a.pages := by
          apply hspos
          rw [hsort]
          exact List.mem_cons_self a t
        simp only [List.map_cons, List.sum_cons]
        omega
    have htne : (merge_loop 0 0 (stable_sort merge_le found)).2.1 ≠ 0 := by
      rw [htot]
      omega
    simp only [merged_top_entries, merge_pdfs_with_bookmarks, hempty,
      Bool.false_eq_true, if_false, if_neg htne, Option.map_some']
    rw [merge_loop_entries (stable_sort merge_le found) hspos 0 0]
    rw [hadd0, spec_top_level]
  · intro h1
    have hrep : (stable_sort merge_le found).map (fun f => f.pages)
        = List.replicate found.length 1 := by
      have hall : ∀ b ∈ (stable_sort merge_le found).map (fun f => f.pages), b = 1 := by
        intro b hb
        obtain ⟨f, hf, hfb⟩ := List.mem_map.mp hb
        rw [← hfb]
        exact h1 f ((mem_stable_sort merge_le found f).mp hf)
      have hlen3 : ((stable_sort merge_le found).map (fun f => f.pages)).length
          = found.length := by simp [hslen]
      rw [← hlen3]
      exact List.eq_replicate_length.mpr hall
    rw [spec_top_level, hrep, page_offsets_replicate_one]
    have : (fun e : String × ℕ => e.2) = Prod.snd := rfl
    rw [this, List.map_snd_zip]
    rw [List.length_range]
    simp [hslen]
  · intro gfiles
    rw [pdf_fill_merge_entries, pdf_fill_merge_entries_from_eq, hadd0]

/-- Witness for C2: two concrete single-page files. -/
theorem claim_C2_witness :
    merged_top_entries [⟨"1-a.pdf", 1, []⟩, ⟨"2-b.pdf", 1, []⟩]
      = some (spec_top_level (stable_sort merge_le
          [⟨"1-a.pdf", 1, []⟩, ⟨"2-b.pdf", 1, []⟩])) ∧
    (spec_top_level (stable_sort merge_le
        [⟨"1-a.pdf", 1, []⟩, ⟨"2-b.pdf", 1, []⟩])).length
      = ([⟨"1-a.pdf", 1, []⟩, ⟨"2-b.pdf", 1, []⟩] : List MergeInput).length ∧
    ((∀ f ∈ ([⟨"1-a.pdf", 1, []⟩, ⟨"2-b.pdf", 1, []⟩] : List MergeInput), f.pages = 1) →
      (spec_top_level (stable_sort merge_le
          [⟨"1-a.pdf", 1, []⟩, ⟨"2-b.pdf", 1, []⟩])).map (fun e => e.2)
        = List.range ([⟨"1-a.pdf", 1, []⟩, ⟨"2-b.pdf", 1, []⟩] : List MergeInput).length) ∧
    (∀ gfiles : List (String × ℕ),
      pdf_fill_merge_entries gfiles
        = List.zip (gfiles.map fun g => stem g.1)
            (page_offsets (gfiles.map fun g => g.2))) :=
  claim_C2 [⟨"1-a.pdf", 1, []⟩, ⟨"2-b.pdf", 1, []⟩]
    (by
      intro f hf
      rcases List.mem_cons.mp hf with rfl | hf2
      · norm_num
      · rcases List.mem_cons.mp hf2 with rfl | hf3
        · norm_num
        · simp at hf3)
    (by simp)

theorem not_mem_unlink_self (x : FsPath) (fs : List FsPath) : x ∉ unlink x fs := by
  simp [unlink]

theorem not_mem_unlink (x y : FsPath) (fs : List FsPath) (h : x ∉ fs) :
    x ∉ unlink y fs := fun hmem => h (List.mem_filter.mp hmem).1

theorem not_mem_foldl_unlink_of_not_mem :
    ∀ (l fs : List FsPath) (x : FsPath), x ∉ fs →
      x ∉ l.foldl (fun s p => unlink p s) fs
  | [], _, _, h => h
  | a :: t, fs, x, h =>
    not_mem_foldl_unlink_of_not_mem t (unlink a fs) x (not_mem_unlink x a fs h)

theorem not_mem_foldl_unlink_of_mem :
    ∀ (l fs : List FsPath) (x : FsPath), x ∈ l →
      x ∉ l.foldl (fun s p => unlink p s) fs
  | a :: t, fs, x, h => by
    rcases List.mem_cons.mp h with rfl | ht
    · exact not_mem_foldl_unlink_of_not_mem t (unlink x fs) x (not_mem_unlink_self x fs)
    · exact not_mem_foldl_unlink_of_mem t (unlink a fs) x ht

/-- C8: the intermediate temporary files are gone once processing finishes,
on every path.  Whatever stage `process_pdf` reaches (success, early
exception, exception after either temp file was written, empty input, or a
numbering failure), neither `temp_margin_<name>` nor `temp_blank_<name>`
survives the `finally` block; and every `tmp_<name>` file
`pdf_fill.py::merge_pdfs` created before finishing or failing is removed by
its `finally` block. -/
theorem claim_C8 (fn : String) (stage : ProcStage) (fs : List FsPath)
    (input_files : List String) (fail_at : Option ℕ) (fs2 : List FsPath)
    (p : FsPath) (hp : p ∈ merge_tmp_created input_files fail_at) :
    FsPath.temp_margin fn ∉ run_process_pdf_fs fn stage fs ∧
    FsPath.temp_blank fn ∉ run_process_pdf_fs fn stage fs ∧
    p ∉ run_merge_pdfs_fs input_files fail_at fs2 := by
  refine ⟨?_, ?_, ?_⟩
  · show FsPath.temp_margin fn ∉
      unlink (.temp_blank fn) (unlink (.temp_margin fn)
        (fs ++ process_pdf_files_created fn stage))
    exact not_mem_unlink _ _ _ (not_mem_unlink_self _ _)
  · show FsPath.temp_blank fn ∉
      unlink (.temp_blank fn) (unlink (.temp_margin fn)
        (fs ++ process_pdf_files_created fn stage))
    exact not_mem_unlink_self _ _
  · exact not_mem_foldl_unlink_of_mem _ _ p hp

/-- Witness for C8: a completed run for "a.pdf" and a merge over one file
that fails on its first input. -/
theorem claim_C8_witness :
    FsPath.temp_margin "a.pdf" ∉ run_process_pdf_fs "a.pdf" .completed [] ∧
    FsPath.temp_blank "a.pdf" ∉ run_process_pdf_fs "a.pdf" .completed [] ∧
    FsPath.tmp_of "x.pdf" ∉ run_merge_pdfs_fs ["x.pdf", "y.pdf"] (some 1) [] :=
  claim_C8 "a.pdf" .completed [] ["x.pdf", "y.pdf"] (some 1) []
    (FsPath.tmp_of "x.pdf") (by simp [merge_tmp_created])

/-- C9: fatal conditions abort with a diagnostic and write nothing.  When
zero pages end up merged (for instance because every mergeable file is
empty), `merge_pdfs_with_bookmarks` writes no merged file and reports
either "nothing to merge" or "no pages merged"; `process_all_pdfs` with no
input PDFs reports that and never invokes the merge; and `pdf_fill.py`'s
directory mode aborts on a directory with no PDF files. -/
theorem claim_C9 (found : List MergeInput)
    (hzero : ((found.map (fun f => f.pages)).sum) = 0) :
    (merge_pdfs_with_bookmarks found).1 = none ∧
    ((merge_pdfs_with_bookmarks found).2 = [BatchLog.no_mergeable_files] ∨
      (merge_pdfs_with_bookmarks found).2 = [BatchLog.no_pages_merged]) ∧
    (process_all_pdfs []).merged = none ∧
    (process_all_pdfs []).merge_inputs = none ∧
    BatchLog.no_input_files ∈ (process_all_pdfs []).logs ∧
    pdf_fill_main_dir [] = none := by
  have hsum : ((stable_sort merge_le found).map (fun f => f.pages)).sum = 0 := by
    have hperm : List.Perm ((stable_sort merge_le found).map (fun f => f.pages))
        (found.map (fun f => f.pages)) :=
      (perm_stable_sort merge_le found).map (fun f => f.pages)
    rw [hperm.sum_eq, hzero]
  have htot : (merge_loop 0 0 (stable_sort merge_le found)).2.1 = 0 := by
    rw [merge_loop_total, hsum]
  have hmerge : (merge_pdfs_with_bookmarks found).1 = none ∧
      ((merge_pdfs_with_bookmarks found).2 = [BatchLog.no_mergeable_files] ∨
        (merge_pdfs_with_bookmarks found).2 = [BatchLog.no_pages_merged]) := by
    by_cases hempty : (stable_sort merge_le found).isEmpty = true
    · constructor
      · simp only [merge_pdfs_with_bookmarks, hempty, if_true]
      · left
        simp only [merge_pdfs_with_bookmarks, hempty, if_true]
    · constructor
      · simp only [merge_pdfs_with_bookmarks, Bool.not_eq_true] at hempty ⊢
        simp only [hempty, Bool.false_eq_true, if_false, htot, if_pos rfl]
        simp
      · right
        simp only [merge_pdfs_with_bookmarks, Bool.not_eq_true] at hempty ⊢
        simp only [hempty, Bool.false_eq_true, if_false, htot, if_pos rfl]
        simp
  refine ⟨hmerge.1, hmerge.2, ?_, ?_, ?_, ?_⟩
  · rfl
  · rfl
  · simp [process_all_pdfs]
  · rfl

/-- Witness for C9: one found file with zero pages. -/
theorem claim_C9_witness :
    (merge_pdfs_with_bookmarks [⟨"a.pdf", 0, []⟩]).1 = none ∧
    ((merge_pdfs_with_bookmarks [⟨"a.pdf", 0, []⟩]).2 = [BatchLog.no_mergeable_files] ∨
      (merge_pdfs_with_bookmarks [⟨"a.pdf", 0, []⟩]).2 = [BatchLog.no_pages_merged]) ∧
    (process_all_pdfs []).merged = none ∧
    (process_all_pdfs []).merge_inputs = none ∧
    BatchLog.no_input_files ∈ (process_all_pdfs []).logs ∧
    pdf_fill_main_dir [] = none :=
  claim_C9 [⟨"a.pdf", 0, []⟩] (by simp)

theorem batch_outputs_append :
    ∀ l1 l2 : List (String × FileOutcome),
      batch_outputs (l1 ++ l2) = batch_outputs l1 ++ batch_outputs l2
  | [], l2 => rfl
  | (fn, oc) :: t, l2 => by
    rw [List.cons_append, batch_outputs, batch_outputs_append t l2, batch_outputs,
      List.append_assoc]

theorem batch_success_count_append :
    ∀ l1 l2 : List (String × FileOutcome),
      batch_success_count (l1 ++ l2) = batch_success_count l1 + batch_success_count l2
  | [], l2 => by rw [List.nil_append, batch_success_count, Nat.zero_add]
  | (fn, oc) :: t, l2 => by
    rw [List.cons_append, batch_success_count, batch_success_count_append t l2,
      batch_success_count, Nat.add_assoc]

theorem batch_failed_append :
    ∀ l1 l2 : List (String × FileOutcome),
      batch_failed (l1 ++ l2) = batch_failed l1 ++ batch_failed l2
  | [], l2 => rfl
  | (fn, oc) :: t, l2 => by
    rw [List.cons_append, batch_failed, batch_failed_append t l2, batch_failed,
      List.append_assoc]

theorem batch_logs_append :
    ∀ l1 l2 : List (String × FileOutcome),
      batch_logs (l1 ++ l2) = batch_logs l1 ++ batch_logs l2
  | [], l2 => rfl
  | (fn, oc) :: t, l2 => by
    rw [List.cons_append, batch_logs, batch_logs_append t l2, batch_logs,
      List.append_assoc]

theorem batch_counts_of_success :
    ∀ l : List (String × FileOutcome),
      (∀ x ∈ l, ∃ p o, x.2 = FileOutcome.success p o) →
      batch_success_count l = l.length ∧ batch_failed l = []
  | [], _ => ⟨rfl, rfl⟩
  | (fn, oc) :: rest, h => by
    obtain ⟨p, o, hoc⟩ := h (fn, oc) (List.mem_cons_self _ _)
    have hoc' : oc = FileOutcome.success p o := hoc
    subst hoc'
    obtain ⟨ih1, ih2⟩ :=
      batch_counts_of_success rest (fun x hx => h x (List.mem_cons_of_mem _ hx))
    constructor
    · rw [batch_success_count, ih1]
      simp only [outcome_succeeded, if_true, List.length_cons]
      omega
    · rw [batch_failed, ih2]
      simp [outcome_succeeded]

/-- Counterexample to C1 as stated: in a two-file batch where "a.pdf"
succeeds and "b.pdf" fails with an exception, the summary records one
success and one failure, yet the merge step's input list contains "b.pdf" —
the fallback copy of the failed file sits in the output directory and is
picked up by the merge's glob — so the merge does not use only the outputs
of the successfully processed files. -/
theorem claim_C1_counterexample :
    (process_all_pdfs [("a.pdf", .success 1 []), ("b.pdf", .fail_early 1)]).success_count
      = 1 ∧
    (process_all_pdfs [("a.pdf", .success 1 []), ("b.pdf", .fail_early 1)]).failed
      = ["b.pdf"] ∧
    ((process_all_pdfs [("a.pdf", .success 1 []), ("b.pdf", .fail_early 1)]).merge_inputs).map
        (fun l => l.map (fun mi => mi.name))
      = some ["a.pdf", "b.pdf"] := by
  refine ⟨rfl, rfl, ?_⟩
  rfl

/-- C1 (amended): in a batch where exactly one file fails with an exception
and every other file succeeds, the orchestrator logs the failure, copies the
original file to the expected output path as a best-effort fallback,
continues with the remaining files, and reports a summary counting the
successes and the one failure; the subsequent merge step then uses all PDF
files present in the output directory — the successful outputs together
with the fallback copy of the failed file — not only the successful
outputs. -/
theorem claim_C1_amended (pre post : List (String × FileOutcome))
    (bad : String) (m : ℕ)
    (hpre : ∀ x ∈ pre, ∃ p o, x.2 = FileOutcome.success p o)
    (hpost : ∀ x ∈ post, ∃ p o, x.2 = FileOutcome.success p o)
    (hne : pre ++ post ≠ []) :
    (process_all_pdfs (pre ++ (bad, .fail_early m) :: post)).success_count
      = pre.length + post.length ∧
    (process_all_pdfs (pre ++ (bad, .fail_early m) :: post)).failed = [bad] ∧
    BatchLog.proc_error bad
      ∈ (process_all_pdfs (pre ++ (bad, .fail_early m) :: post)).logs ∧
    BatchLog.fallback_copied bad
      ∈ (process_all_pdfs (pre ++ (bad, .fail_early m) :: post)).logs ∧
    BatchLog.summary (pre.length + post.length) [bad]
      ∈ (process_all_pdfs (pre ++ (bad, .fail_early m) :: post)).logs ∧
    (⟨bad, m, []⟩ : MergeInput) ∈ batch_outputs (pre ++ (bad, .fail_early m) :: post) ∧
    (process_all_pdfs (pre ++ (bad, .fail_early m) :: post)).merge_inputs
      = some (stable_sort merge_le (batch_outputs (pre ++ (bad, .fail_early m) :: post))) ∧
    (⟨bad, m, []⟩ : MergeInput)
      ∈ ((process_all_pdfs (pre ++ (bad, .fail_early m) :: post)).merge_inputs).getD [] ∧
    (process_all_pdfs (pre ++ (bad, .fail_early m) :: post)).merged
      = (merge_pdfs_with_bookmarks (batch_outputs (pre ++ (bad, .fail_early m) :: post))).1 := by
  obtain ⟨hcpre, hfpre⟩ := batch_counts_of_success pre hpre
  obtain ⟨hcpost, hfpost⟩ := batch_counts_of_success post hpost
  have hccons : batch_success_count ((bad, FileOutcome.fail_early m) :: post)
      = batch_success_count post := by
    rw [batch_success_count]
    simp [outcome_succeeded]
  have hcnt : batch_success_count (pre ++ (bad, .fail_early m) :: post)
      = pre.length + post.length := by
    rw [batch_success_count_append, hccons, hcpre, hcpost]
  have hfl : batch_failed (pre ++ (bad, .fail_early m) :: post) = [bad] := by
    rw [batch_failed_append, hfpre]
    rw [show batch_failed ((bad, FileOutcome.fail_early m) :: post)
        = [bad] ++ batch_failed post from rfl, hfpost]
    rfl
  have hlpos : 0 < pre.length + post.length := by
    rcases pre with _ | ⟨a, t⟩
    · rcases post with _ | ⟨b, u⟩
      · exact absurd rfl hne
      · simp
    · simp
  have hempty : (pre ++ (bad, FileOutcome.fail_early m) :: post).isEmpty = false := by
    rcases pre with _ | ⟨a, t⟩ <;> rfl
  have hpos : 0 < batch_success_count (pre ++ (bad, .fail_early m) :: post) := by
    rw [hcnt]
    exact hlpos
  have heq : process_all_pdfs (pre ++ (bad, .fail_early m) :: post) =
      { success_count := batch_success_count (pre ++ (bad, .fail_early m) :: post)
        failed := batch_failed (pre ++ (bad, .fail_early m) :: post)
        logs := batch_logs (pre ++ (bad, .fail_early m) :: post)
          ++ [.summary (batch_success_count (pre ++ (bad, .fail_early m) :: post))
                (batch_failed (pre ++ (bad, .fail_early m) :: post))]
        merge_inputs := some (stable_sort merge_le
          (batch_outputs (pre ++ (bad, .fail_early m) :: post)))
        merged := (merge_pdfs_with_bookmarks
          (batch_outputs (pre ++ (bad, .fail_early m) :: post))).1 } := by
    simp only [process_all_pdfs, hempty, Bool.false_eq_true, if_false, if_pos hpos]
  have hlogs : batch_logs (pre ++ (bad, .fail_early m) :: post)
      = batch_logs pre
        ++ ([.proc_error bad, .fallback_copied bad] ++ batch_logs post) := by
    rw [batch_logs_append]
    rfl
  have houts : batch_outputs (pre ++ (bad, .fail_early m) :: post)
      = batch_outputs pre ++ ([⟨bad, m, []⟩] ++ batch_outputs post) := by
    rw [batch_outputs_append]
    rfl
  have hmem : (⟨bad, m, []⟩ : MergeInput)
      ∈ batch_outputs (pre ++ (bad, .fail_early m) :: post) := by
    rw [houts]
    simp
  refine ⟨by rw [heq, hcnt], by rw [heq, hfl], ?_, ?_, ?_, hmem, by rw [heq], ?_, by rw [heq]⟩
  · rw [heq]
    simp only [hlogs]
    simp
  · rw [heq]
    simp only [hlogs]
    simp
  · rw [heq, hcnt, hfl]
    simp
  · rw [heq]
    simp only [Option.getD_some]
    exact (mem_stable_sort merge_le _ _).mpr hmem

/-- Witness for the amended C1: batch of "a.pdf" (succeeds) and "b.pdf"
(fails). -/
theorem claim_C1_amended_witness :
    (process_all_pdfs ([("a.pdf", .success 1 [])] ++ ("b.pdf", .fail_early 1) :: [])).success_count
      = [("a.pdf", FileOutcome.success 1 [])].length + ([] : List (String × FileOutcome)).length ∧
    (process_all_pdfs ([("a.pdf", .success 1 [])] ++ ("b.pdf", .fail_early 1) :: [])).failed
      = ["b.pdf"] ∧
    BatchLog.proc_error "b.pdf"
      ∈ (process_all_pdfs ([("a.pdf", .success 1 [])] ++ ("b.pdf", .fail_early 1) :: [])).logs ∧
    BatchLog.fallback_copied "b.pdf"
      ∈ (process_all_pdfs ([("a.pdf", .success 1 [])] ++ ("b.pdf", .fail_early 1) :: [])).logs ∧
    BatchLog.summary ([("a.pdf", FileOutcome.success 1 [])].length
        + ([] : List (String × FileOutcome)).length) ["b.pdf"]
      ∈ (process_all_pdfs ([("a.pdf", .success 1 [])] ++ ("b.pdf", .fail_early 1) :: [])).logs ∧
    (⟨"b.pdf", 1, []⟩ : MergeInput)
      ∈ batch_outputs ([("a.pdf", .success 1 [])] ++ ("b.pdf", .fail_early 1) :: []) ∧
    (process_all_pdfs ([("a.pdf", .success 1 [])] ++ ("b.pdf", .fail_early 1) :: [])).merge_inputs
      = some (stable_sort merge_le
          (batch_outputs ([("a.pdf", .success 1 [])] ++ ("b.pdf", .fail_early 1) :: []))) ∧
    (⟨"b.pdf", 1, []⟩ : MergeInput)
      ∈ ((process_all_pdfs ([("a.pdf", .success 1 [])] ++ ("b.pdf", .fail_early 1) :: [])).merge_inputs).getD [] ∧
    (process_all_pdfs ([("a.pdf", .success 1 [])] ++ ("b.pdf", .fail_early 1) :: [])).merged
      = (merge_pdfs_with_bookmarks
          (batch_outputs ([("a.pdf", .success 1 [])] ++ ("b.pdf", .fail_early 1) :: []))).1 :=
  claim_C1_amended [("a.pdf", .success 1 [])] [] "b.pdf" 1
    (by
      intro x hx
      rcases List.mem_cons.mp hx with rfl | hx2
      · exact ⟨1, [], rfl⟩
      · simp at hx2)
    (by intro x hx; simp at hx)
    (by simp)

end PdfSelector
